import Mathlib

/-!
Shallow embedding of `tesaguri/webhook-server` (src/config.rs, src/service.rs)
for verification of its specification.

Bytes are modelled as `Nat` values (the code only produces values `< 256`
where it matters, via hex decoding). Strings that the code treats as byte
slices (header values, secrets) are modelled as `List Nat`. `std::time::Duration`
values are modelled as a whole number of seconds, which is faithful because the
configuration only ever constructs durations via `Duration::from_secs`.
-/

namespace WebhookServer

/-- From `config.rs`: `Hook { program: Box<str>, args: Option<Box<[Box<str>]>>,
secret: Option<Box<str>> }`. The secret is modelled by its UTF-8 bytes,
since the code only ever uses it through `secret.as_bytes()`. -/
structure Hook where
  program : String
  args : Option (List String)
  secret : Option (List Nat)
  deriving DecidableEq, Repr

/-- From `config.rs`: the `HookPrototype` struct deserialized for each element of
the `hook` sequence in the configuration. -/
structure HookPrototype where
  location : String
  program : String
  args : Option (List String)
  secret : Option (List Nat)
  deriving DecidableEq, Repr

/-- The `Hook` built from a `HookPrototype` in `deserialize_hook`'s loop. -/
def HookPrototype.toHook (p : HookPrototype) : Hook :=
  { program := p.program, args := p.args, secret := p.secret }

/-- The hook registry `HashMap<Box<str>, Hook>`, modelled as an association
list whose keys are pairwise distinct (maintained by `mapInsert`). -/
abbrev Registry := List (String × Hook)

/-- Model of `HashMap::insert` on the association-list model: replace the value of an
existing key in place, otherwise append the new binding. -/
def mapInsert : Registry → String → Hook → Registry
  | [], k, v => [(k, v)]
  | p :: rest, k, v => if p.1 = k then (k, v) :: rest else p :: mapInsert rest k v

/-- Model of `HashMap::get` on the association-list model. -/
def lookupHook (m : Registry) (path : String) : Option Hook :=
  (m.find? fun p => p.1 = path).map Prod.snd

/-- From `config.rs`, `deserialize_hook`: fold the configured sequence of hook
definitions into the registry with `ret.insert(p.location, hook)`. -/
def deserialize_hook (defs : List HookPrototype) : Registry :=
  defs.foldl (fun m p => mapInsert m p.location p.toHook) []

/-- From `config.rs`: `fn default_timeout() -> Duration { Duration::from_secs(60) }`,
in seconds. -/
def default_timeout : Nat := 60

/-- From `config.rs`, `deserialize_timeout`: a `u64` from the configuration is
interpreted as a whole number of seconds (`Duration::from_secs`). -/
def deserialize_timeout (n : Nat) : Nat := n

/-- The `timeout` field of `Config`: serde uses `deserialize_timeout` when the
field is present and falls back to `default_timeout` when it is absent
(`#[serde(default = "default_timeout")]`). -/
def configTimeout (field : Option Nat) : Nat :=
  match field with
  | some n => deserialize_timeout n
  | none => default_timeout

/-! ## Signature header parsing (`service.rs`, `parse_signature_header`) -/

/-- Constant `SIGNATURE_LEN`: the SHA-1 output size in bytes. -/
def SIGNATURE_LEN : Nat := 20

inductive SignatureParseError where
  | Malformed
  | UnknownAlgorithm
  deriving DecidableEq, Repr

/-- The value of one hexadecimal digit byte, as accepted by the `hex` crate
(`0-9`, `a-f`, `A-F`); `none` for any other byte. -/
def hexVal (b : Nat) : Option Nat :=
  if 48 ≤ b ∧ b ≤ 57 then some (b - 48)
  else if 97 ≤ b ∧ b ≤ 102 then some (b - 87)
  else if 65 ≤ b ∧ b ≤ 70 then some (b - 55)
  else none

/-- Decode a list of hex-digit bytes two at a time into output bytes;
fails on any non-hex-digit byte or odd length. -/
def hexDecodePairs : List Nat → Option (List Nat)
  | [] => some []
  | [_] => none
  | h :: l :: rest => do
      let hi ← hexVal h
      let lo ← hexVal l
      let r ← hexDecodePairs rest
      pure ((hi * 16 + lo) :: r)

/-- Model of `hex::decode_to_slice` into a buffer of `outLen` bytes: the input must be
exactly `2 * outLen` hex digits, all valid. -/
def decode_to_slice (input : List Nat) (outLen : Nat) : Option (List Nat) :=
  if input.length = 2 * outLen then hexDecodePairs input else none

/-- Split a header value at the first `'='` (byte 61), as
`header.iter().position(|&b| b == b'=')` followed by `split_at`; the `'='`
itself belongs to neither part. `none` when no `'='` occurs. -/
def splitAtFirstEq : List Nat → Option (List Nat × List Nat)
  | [] => none
  | b :: rest =>
      if b = 61 then some ([], rest)
      else match splitAtFirstEq rest with
        | some (m, h) => some (b :: m, h)
        | none => none

/-- The bytes of the ASCII string `sha1`. -/
def sha1Bytes : List Nat := [115, 104, 97, 49]

/-- From `service.rs`, `parse_signature_header`: split the header value at the
first `'='` into an algorithm token and a hex digest; no `'='` is malformed;
for `sha1` the digest must hex-decode to exactly `SIGNATURE_LEN` bytes;
any other token is an unknown algorithm. -/
def parse_signature_header (header : List Nat) :
    Except SignatureParseError (List Nat) :=
  match splitAtFirstEq header with
  | none => .error .Malformed
  | some (method, signature_hex) =>
      if method = sha1Bytes then
        match decode_to_slice signature_hex SIGNATURE_LEN with
        | some buf => .ok buf
        | none => .error .Malformed
      else .error .UnknownAlgorithm

deriving instance DecidableEq for Except

/-! ## Lifecycle supervision (`service.rs`, lines 158–171) -/

/-- How the `future::select(child, timeout)` race resolves. -/
inductive SuperviseOutcome where
  /-- The child's exit was observed first; its wait result
  (`Ok(status)` or a wait error) is logged. -/
  | exited (res : Except String Int)
  /-- The timer fired first: a timeout warning is logged and the child is
  killed. -/
  | timedOutKilled
  /-- Zero timeout and a child that never exits: the task waits forever. -/
  | waitsForever
  deriving DecidableEq, Repr

structure SuperviseResult where
  /-- Whether `child.kill()` was invoked. -/
  killSent : Bool
  /-- Whether the process is waited on (the `select` resolved the child's
  wait), or a wait is attempted after the fact: in the timeout branch the
  `Child` handle is dropped after `kill()`, which in tokio 0.2 moves the
  still-unreaped process to the runtime's orphan queue where a wait is
  attempted. `false` only when the task is still waiting forever. -/
  reapAttempted : Bool
  outcome : SuperviseOutcome
  deriving DecidableEq, Repr

/-- The environment's behavior of one spawned child process: `exitsAt` is the
time (in seconds from spawn) of its natural exit, `none` if it never exits;
`waitRes` is what waiting on it reports. -/
structure ChildBehavior where
  exitsAt : Option Nat
  waitRes : Except String Int
  deriving DecidableEq, Repr

/-- From `service.rs`, lines 158–171: when `timeout` is zero the timer is
`future::pending()` and the race can only resolve with the child's exit;
otherwise the child's exit races `delay_for(timeout)`. `future::select`
polls the child first, so a child that has exited by the time the timer
fires is observed as exited, never killed; if the timer fires while the
child still runs, a warning is logged and `child.kill()` is invoked, after
which the dropped handle is left to the runtime to reap. -/
def supervise (timeout : Nat) (child : ChildBehavior) : SuperviseResult :=
  if timeout = 0 then
    match child.exitsAt with
    | some _ => ⟨false, true, .exited child.waitRes⟩
    | none => ⟨false, false, .waitsForever⟩
  else
    match child.exitsAt with
    | some t =>
        if t ≤ timeout then ⟨false, true, .exited child.waitRes⟩
        else ⟨true, true, .timedOutKilled⟩
    | none => ⟨true, true, .timedOutKilled⟩

/-! ## The background task (`service.rs`, lines 124–172)

The spawned async block is modelled as the trace of observable events it
performs, as a function of the environment's behavior (the body stream, the
outcome of each pipe operation, and the child's behavior). -/

/-- Model of `std::io::ErrorKind`, restricted to what the code distinguishes. -/
inductive ErrKind where
  | brokenPipe
  | other (tag : Nat)
  deriving DecidableEq, Repr

/-- Observable events of the background task, in order. -/
inductive Ev where
  /-- One chunk was pulled from the request-body stream. -/
  | read (chunk : List Nat)
  /-- The body stream yielded an error; the task logs and returns. -/
  | readErr
  /-- The computed HMAC digest differed from the header's signature;
  the task logs "Signature mismatch" and returns. -/
  | mismatch
  /-- Event: `stdin.write_all(bytes)` succeeded: all of `bytes` were forwarded to
  the child's standard input, in order. -/
  | write (bytes : List Nat)
  /-- Event: `stdin.write_all` failed with the given error kind. -/
  | writeErr (k : ErrKind)
  /-- Event: `stdin.shutdown()` succeeded: the pipe's write side was explicitly
  closed. -/
  | close
  /-- Event: `stdin.shutdown()` failed with the given error kind. -/
  | closeErr (k : ErrKind)
  /-- The `stdin` handle was dropped (closing the pipe if still open). -/
  | dropPipe
  /-- The `child` handle was dropped without running the wait/timeout race. -/
  | dropChild
  /-- The wait/timeout race (`future::select(child, timeout)`) was run,
  with the given result. -/
  | supervised (r : SuperviseResult)
  deriving DecidableEq, Repr

/-- The environment of one background task run. -/
structure Env where
  /-- The chunks the body stream yields, in order. -/
  chunks : List (List Nat)
  /-- Whether the stream yields an error after those chunks
  (instead of ending). -/
  bodyErr : Bool
  /-- HMAC-SHA1 (from the `hmac`/`sha1` crates): key bytes and message bytes
  to 20 digest bytes. Kept abstract; the claims only depend on how its
  output is compared. -/
  hmac : List Nat → List Nat → List Nat
  /-- Outcome of `stdin.write_all` (`none` = success). -/
  writeRes : Option ErrKind
  /-- Outcome of `stdin.shutdown` (`none` = success). -/
  closeRes : Option ErrKind
  child : ChildBehavior

/-- Lines 150–171: close the pipe and supervise the child. A shutdown error
of kind broken-pipe is benign; any other shutdown error logs and returns. -/
def closeAndSupervise (timeout : Nat) (env : Env) : List Ev :=
  match env.closeRes with
  | some k =>
      if k ≠ .brokenPipe then [.closeErr k, .dropPipe, .dropChild]
      else [.closeErr k, .dropPipe, .supervised (supervise timeout env.child)]
  | none => [.close, .dropPipe, .supervised (supervise timeout env.child)]

/-- Lines 144–171: forward the buffered body into the pipe, then close and
supervise. A write error of kind broken-pipe is benign (the sequence
continues); any other write error logs and returns. -/
def writeCloseSupervise (timeout : Nat) (body : List Nat) (env : Env) :
    List Ev :=
  match env.writeRes with
  | some k =>
      if k ≠ .brokenPipe then [.writeErr k, .dropPipe, .dropChild]
      else .writeErr k :: closeAndSupervise timeout env
  | none => .write body :: closeAndSupervise timeout env

/-- From `service.rs`, lines 124–172, the spawned async block: fold the body
stream into one `Vec` (reading every chunk before anything else); on a read
error log and return; if a verifier is present, compare the HMAC of the
buffered body against the signature and return on mismatch; otherwise write
the whole buffer, shut the pipe down, and run the wait/timeout race.
`verifier` is `Some((mac, signature))` modelled as the secret's key bytes
paired with the parsed signature bytes. -/
def backgroundTask (timeout : Nat) (verifier : Option (List Nat × List Nat))
    (env : Env) : List Ev :=
  env.chunks.map Ev.read ++
    if env.bodyErr then [.readErr, .dropPipe, .dropChild]
    else
      let body := env.chunks.flatten
      match verifier with
      | some (key, signature) =>
          if env.hmac key body ≠ signature then [.mismatch, .dropPipe, .dropChild]
          else writeCloseSupervise timeout body env
      | none => writeCloseSupervise timeout body env

/-! ## The synchronous dispatch (`service.rs`, `Service::call`) -/

/-- The environment's answer to `cmd.spawn()` and `child.stdin.take()`. -/
inductive SpawnOutcome where
  /-- Case: `cmd.spawn()` returned `Ok`; the field tells whether `child.stdin`
  was available. -/
  | ok (stdinAvailable : Bool)
  /-- Case: `cmd.spawn()` returned `Err`. -/
  | err
  deriving DecidableEq, Repr

/-- What `Service::call` returns and does synchronously. -/
structure SyncResult where
  status : Nat
  /-- The response body; every branch answers `B::default()`, the empty
  body. -/
  body : List Nat
  /-- Whether a child process was spawned. -/
  spawned : Bool
  /-- Field is `some verifier` iff the background task was launched
  (`tokio::spawn`), carrying the verifier it was launched with. -/
  launched : Option (Option (List Nat × List Nat))
  deriving DecidableEq, Repr

/-- Lines 88–174: once the routing/authentication decision allows it, spawn
the child; a spawn failure answers 500 with nothing launched; a missing
stdin handle answers 500 (the child was spawned); otherwise launch the
background task and answer 200. -/
def spawnAndLaunch (verifier : Option (List Nat × List Nat))
    (spawn : SpawnOutcome) : SyncResult :=
  match spawn with
  | .err => ⟨500, [], false, none⟩
  | .ok false => ⟨500, [], true, none⟩
  | .ok true => ⟨200, [], true, some verifier⟩

/-- From `service.rs`, `Service::call`, lines 46–175: look the path up in the
registry (404 when absent); when the hook has a secret, require the
`x-hub-signature` header (401 when absent), parse it (400 when malformed,
406 for an unknown algorithm); then spawn and launch. `header` is the raw
value of the `x-hub-signature` header, if the request carries one. -/
def serviceCall (hooks : Registry) (path : String) (header : Option (List Nat))
    (spawn : SpawnOutcome) : SyncResult :=
  match lookupHook hooks path with
  | none => ⟨404, [], false, none⟩
  | some hook =>
      match hook.secret with
      | some secret =>
          match header with
          | none => ⟨401, [], false, none⟩
          | some v =>
              match parse_signature_header v with
              | .error .Malformed => ⟨400, [], false, none⟩
              | .error .UnknownAlgorithm => ⟨406, [], false, none⟩
              | .ok signature => spawnAndLaunch (some (secret, signature)) spawn
      | none => spawnAndLaunch none spawn

/-! ## Helper predicates on event traces -/

/-- Whether a trace contains a successful pipe write. -/
def hasWrite (tr : List Ev) : Bool :=
  tr.any fun e => match e with | .write _ => true | _ => false

/-- Whether a trace contains the wait/timeout race. -/
def hasSupervised (tr : List Ev) : Bool :=
  tr.any fun e => match e with | .supervised _ => true | _ => false

/-- Whether a trace contains an explicit pipe shutdown. -/
def hasClose (tr : List Ev) : Bool :=
  tr.any fun e => match e with | .close => true | _ => false

/-- Whether a trace contains a body-chunk read. -/
def isRead (e : Ev) : Bool :=
  match e with | .read _ => true | _ => false

/-- Whether every successful write in the trace writes exactly `buf`. -/
def writesOnly (buf : List Nat) (tr : List Ev) : Bool :=
  tr.all fun e => match e with | .write b => b = buf | _ => true

/-- The verification step lets the body through: either no verifier, or the
HMAC of the whole buffered body equals the header's signature. -/
def verifierOk (verifier : Option (List Nat × List Nat)) (env : Env) : Prop :=
  match verifier with
  | none => True
  | some (key, signature) => env.hmac key env.chunks.flatten = signature

/-! ## Helper lemmas -/

lemma hasWrite_reads (l : List (List Nat)) (tr : List Ev) :
    hasWrite (l.map Ev.read ++ tr) = hasWrite tr := by
  induction l with
  | nil => rfl
  | cons c rest ih => simp [hasWrite] at ih ⊢

lemma hasSupervised_reads (l : List (List Nat)) (tr : List Ev) :
    hasSupervised (l.map Ev.read ++ tr) = hasSupervised tr := by
  induction l with
  | nil => rfl
  | cons c rest ih => simp [hasSupervised] at ih ⊢

lemma lookupHook_cons (q : String × Hook) (rest : Registry) (p : String) :
    lookupHook (q :: rest) p = if q.1 = p then some q.2 else lookupHook rest p := by
  by_cases h : q.1 = p <;> simp [lookupHook, List.find?, h]

lemma lookup_mapInsert (m : Registry) (k : String) (v : Hook) (p : String) :
    lookupHook (mapInsert m k v) p = if k = p then some v else lookupHook m p := by
  induction m with
  | nil =>
      by_cases h : k = p <;> simp [mapInsert, lookupHook, List.find?, h]
  | cons q rest ih =>
      by_cases hq : q.1 = k
      · simp only [mapInsert, if_pos hq, lookupHook_cons]
        by_cases h : k = p
        · simp [h]
        · have hqp : ¬ q.1 = p := by rw [hq]; exact h
          simp [h, hqp]
      · simp only [mapInsert, if_neg hq, lookupHook_cons, ih]
        by_cases h1 : q.1 = p
        · by_cases h2 : k = p
          · exact absurd (h1.trans h2.symm) hq
          · simp [h1, h2]
        · simp [h1]

lemma find?_append {α : Type} (l₁ l₂ : List α) (p : α → Bool) :
    (l₁ ++ l₂).find? p =
      match l₁.find? p with
      | some a => some a
      | none => l₂.find? p := by
  induction l₁ with
  | nil => simp
  | cons a rest ih =>
      by_cases h : p a
      · simp [List.find?, h]
      · simpa [List.find?, h] using ih

lemma lookup_foldl_insert (defs : List HookPrototype) (m : Registry) (p : String) :
    lookupHook (defs.foldl (fun m d => mapInsert m d.location d.toHook) m) p =
      match defs.reverse.find? (fun d => d.location = p) with
      | some d => some d.toHook
      | none => lookupHook m p := by
  induction defs generalizing m with
  | nil => simp
  | cons d rest ih =>
      rw [List.foldl_cons, ih, List.reverse_cons, find?_append]
      cases hf : rest.reverse.find? (fun d => d.location = p) with
      | some e => rfl
      | none =>
          by_cases h : d.location = p
          · simp [List.find?, h, lookup_mapInsert]
          · simp [List.find?, h, lookup_mapInsert]

/-! ## Claim theorems -/

/-- C10: when the configuration omits the `timeout` field, it defaults to 60
seconds, which is not the zero/unlimited sentinel; when present, the value is
interpreted as that whole number of seconds. -/
theorem C10_timeout_default_and_seconds :
    configTimeout none = 60 ∧ configTimeout none ≠ 0 ∧
      ∀ n : Nat, configTimeout (some n) = n :=
  ⟨rfl, by decide, fun _ => rfl⟩

/-- C6: with the zero-timeout sentinel the supervisor never sends a kill; it
either observes the process's natural exit or waits forever. -/
theorem C6_zero_timeout_never_kills (child : ChildBehavior) :
    (supervise 0 child).killSent = false ∧
      ((supervise 0 child).outcome = .exited child.waitRes ∨
        (supervise 0 child).outcome = .waitsForever) := by
  cases h : child.exitsAt <;> simp [supervise, h]

/-- C5: with a non-zero timeout `T`, a process whose natural exit happens by
`T` is waited on normally (its wait result is the logged outcome) and never
killed; a process still running at `T` is sent the kill signal and a wait is
still attempted on it (the dropped handle is reaped by the runtime). -/
theorem C5_nonzero_timeout_race (T : Nat) (child : ChildBehavior)
    (hT : T ≠ 0) :
    (∀ t, child.exitsAt = some t → t ≤ T →
        supervise T child = ⟨false, true, .exited child.waitRes⟩) ∧
      ((child.exitsAt = none ∨ ∃ t, child.exitsAt = some t ∧ T < t) →
        supervise T child = ⟨true, true, .timedOutKilled⟩) := by
  constructor
  · intro t ht hle
    simp [supervise, hT, ht, hle]
  · rintro (h | ⟨t, ht, hlt⟩)
    · simp [supervise, hT, h]
    · simp [supervise, hT, ht, Nat.not_le.mpr hlt]

theorem C5_nonzero_timeout_race_witness :
    supervise 2 ⟨some 1, .ok 0⟩ = ⟨false, true, .exited (.ok 0)⟩ ∧
      supervise 2 ⟨some 3, .ok 0⟩ = ⟨true, true, .timedOutKilled⟩ :=
  ⟨(C5_nonzero_timeout_race 2 ⟨some 1, .ok 0⟩ (by decide)).1 1 rfl (by decide),
    (C5_nonzero_timeout_race 2 ⟨some 3, .ok 0⟩ (by decide)).2
      (Or.inr ⟨3, rfl, by decide⟩)⟩

/-- C8: building the registry from a sequence of hook definitions is total
(`deserialize_hook` is a function) and last-wins on duplicate paths: every
path is mapped to the hook of the last definition in the sequence carrying
that path. -/
theorem C8_registry_last_wins (defs : List HookPrototype) (p : String) :
    lookupHook (deserialize_hook defs) p =
      (defs.reverse.find? fun d => d.location = p).map HookPrototype.toHook := by
  rw [deserialize_hook, lookup_foldl_insert]
  cases hf : defs.reverse.find? (fun d => d.location = p) <;>
    simp [lookupHook]

/-- A registry with one hook at `/deploy` that has no secret. -/
def demoRegistry : Registry := [("/deploy", ⟨"echo", none, none⟩)]

/-- C1 counterexample: the claim says that whenever the matched hook has no
secret the synchronous response is 200, independent of anything else; but
for a request to `/deploy` of `demoRegistry` (a hook with no secret) on
which `cmd.spawn()` fails, `Service::call` answers 500, not 200. -/
theorem C1_counterexample_spawn_failure :
    lookupHook demoRegistry "/deploy" = some ⟨"echo", none, none⟩ ∧
      (serviceCall demoRegistry "/deploy" none .err).status = 500 ∧
      (serviceCall demoRegistry "/deploy" none .err).status ≠ 200 := by
  refine ⟨by decide, rfl, by decide⟩

/-- C1 amended: the synchronous response decision of `Service::call`. No
hook for the path: 404, nothing spawned. Hook with a secret: missing
`x-hub-signature` header 401, malformed header 400, unknown algorithm 406,
each without spawning. When the hook has no secret, or the header parses
with the recognized `sha1` algorithm, the child is spawned and — provided
the spawn succeeds and the stdin pipe is obtained — the response is 200 with
an empty body (independent of the eventual digest outcome, which the
synchronous path never consults); a spawn failure answers 500 with nothing
spawned, and a spawned child without a stdin handle answers 500. -/
theorem C1_response_decision (hooks : Registry) (path : String)
    (header : Option (List Nat)) (spawn : SpawnOutcome) :
    (lookupHook hooks path = none →
        serviceCall hooks path header spawn = ⟨404, [], false, none⟩) ∧
      (∀ hook secret, lookupHook hooks path = some hook →
        hook.secret = some secret →
        (header = none →
          serviceCall hooks path header spawn = ⟨401, [], false, none⟩) ∧
        (∀ v, header = some v →
          (parse_signature_header v = .error .Malformed →
            serviceCall hooks path header spawn = ⟨400, [], false, none⟩) ∧
          (parse_signature_header v = .error .UnknownAlgorithm →
            serviceCall hooks path header spawn = ⟨406, [], false, none⟩) ∧
          (∀ signature, parse_signature_header v = .ok signature →
            serviceCall hooks path header spawn =
              spawnAndLaunch (some (secret, signature)) spawn ∧
            (spawn = .ok true →
              (serviceCall hooks path header spawn).status = 200 ∧
              (serviceCall hooks path header spawn).body = [] ∧
              (serviceCall hooks path header spawn).spawned = true) ∧
            (spawn = .err →
              (serviceCall hooks path header spawn).status = 500 ∧
              (serviceCall hooks path header spawn).spawned = false) ∧
            (spawn = .ok false →
              (serviceCall hooks path header spawn).status = 500)))) ∧
      (∀ hook, lookupHook hooks path = some hook → hook.secret = none →
        (spawn = .ok true →
          (serviceCall hooks path header spawn).status = 200 ∧
          (serviceCall hooks path header spawn).body = [] ∧
          (serviceCall hooks path header spawn).spawned = true) ∧
        (spawn = .err →
          (serviceCall hooks path header spawn).status = 500 ∧
          (serviceCall hooks path header spawn).spawned = false) ∧
        (spawn = .ok false →
          (serviceCall hooks path header spawn).status = 500)) := by
  refine ⟨fun hl => by simp [serviceCall, hl], ?_, ?_⟩
  · intro hook secret hl hs
    refine ⟨fun hh => by simp [serviceCall, hl, hs, hh], ?_⟩
    intro v hv
    refine ⟨fun hp => by simp [serviceCall, hl, hs, hv, hp],
      fun hp => by simp [serviceCall, hl, hs, hv, hp], ?_⟩
    intro signature hp
    refine ⟨by simp [serviceCall, hl, hs, hv, hp], ?_, ?_, ?_⟩ <;>
      intro hsp <;> simp [serviceCall, hl, hs, hv, hp, hsp, spawnAndLaunch]
  · intro hook hl hs
    refine ⟨?_, ?_, ?_⟩ <;>
      intro hsp <;> simp [serviceCall, hl, hs, hsp, spawnAndLaunch]

/-- A 20-byte signature used in concrete instances. -/
def demoSig : List Nat := List.replicate 20 170

/-- A well-formed `sha1=aaaa…aa` header value (40 hex digits). -/
def demoHeader : List Nat := sha1Bytes ++ [61] ++ List.replicate 40 97

/-- A registry with one hook at `/hook` carrying the secret `"s"`. -/
def demoSecretRegistry : Registry := [("/hook", ⟨"echo", none, some [115]⟩)]

theorem C1_response_decision_witness :
    serviceCall demoRegistry "/missing" none .err = ⟨404, [], false, none⟩ ∧
      serviceCall demoSecretRegistry "/hook" none (.ok true) =
        ⟨401, [], false, none⟩ ∧
      serviceCall demoSecretRegistry "/hook" (some [97]) (.ok true) =
        ⟨400, [], false, none⟩ ∧
      serviceCall demoSecretRegistry "/hook" (some [102, 61]) (.ok true) =
        ⟨406, [], false, none⟩ ∧
      (serviceCall demoSecretRegistry "/hook" (some demoHeader)
          (.ok true)).status = 200 ∧
      (serviceCall demoRegistry "/deploy" none (.ok true)).status = 200 := by
  refine ⟨(C1_response_decision demoRegistry "/missing" none .err).1 (by decide),
    ((C1_response_decision demoSecretRegistry "/hook" none (.ok true)).2.1
      ⟨"echo", none, some [115]⟩ [115] (by decide) rfl).1 rfl,
    (((C1_response_decision demoSecretRegistry "/hook" (some [97])
        (.ok true)).2.1 ⟨"echo", none, some [115]⟩ [115] (by decide) rfl).2
      [97] rfl).1 (by decide),
    (((C1_response_decision demoSecretRegistry "/hook" (some [102, 61])
        (.ok true)).2.1 ⟨"echo", none, some [115]⟩ [115] (by decide) rfl).2
      [102, 61] rfl).2.1 (by decide),
    (((((C1_response_decision demoSecretRegistry "/hook" (some demoHeader)
        (.ok true)).2.1 ⟨"echo", none, some [115]⟩ [115] (by decide) rfl).2
      demoHeader rfl).2.2 demoSig (by decide)).2.1 rfl).1,
    (((C1_response_decision demoRegistry "/deploy" none (.ok true)).2.2
      ⟨"echo", none, none⟩ (by decide) rfl).1 rfl).1⟩

/-- When the body stream ends without error and the verification step lets
the body through (no verifier, or matching digest), the background task is
the reads followed by the write/close/supervise phase. -/
lemma backgroundTask_verified (t : Nat) (v : Option (List Nat × List Nat))
    (env : Env) (hb : env.bodyErr = false) (hv : verifierOk v env) :
    backgroundTask t v env =
      env.chunks.map Ev.read ++ writeCloseSupervise t env.chunks.flatten env := by
  cases v with
  | none => simp [backgroundTask, hb]
  | some p =>
      obtain ⟨key, s⟩ := p
      have hm : env.hmac key env.chunks.flatten = s := hv
      simp [backgroundTask, hb, hm]

/-- C2 counterexample input: a body of two chunks, and an HMAC whose output
(all-zero) differs from the header's all-one signature. -/
def mismatchEnv : Env :=
  ⟨[[1, 2], [3]], false, fun _ _ => List.replicate 20 0, none, none,
    ⟨some 1, .ok 0⟩⟩

/-- C2 counterexample: the claim says that on a digest mismatch the
wait/timeout race is still run on the spawned process; but on this concrete
mismatch run the task's trace records the mismatch, forwards no bytes, and
contains no supervision event — the async block returns before reaching
`future::select`, dropping the pipe and the child handle. -/
theorem C2_counterexample_mismatch_skips_supervisor :
    Ev.mismatch ∈ backgroundTask 5 (some ([7], List.replicate 20 1)) mismatchEnv ∧
      hasWrite (backgroundTask 5 (some ([7], List.replicate 20 1)) mismatchEnv)
        = false ∧
      hasSupervised
        (backgroundTask 5 (some ([7], List.replicate 20 1)) mismatchEnv)
        = false := by
  decide

/-- C2 amended: when authentication is required and the digest comparison
mismatches, zero body bytes are forwarded, but the background task returns
early: the pipe is closed only implicitly by dropping the stdin handle, and
the wait/timeout race is never run — the child handle is dropped without
supervision (so the configured timeout never kills such a process). -/
theorem C2_mismatch_skips_supervisor (timeout : Nat)
    (key signature : List Nat) (env : Env) (hbody : env.bodyErr = false)
    (hmis : env.hmac key env.chunks.flatten ≠ signature) :
    backgroundTask timeout (some (key, signature)) env =
        env.chunks.map Ev.read ++ [.mismatch, .dropPipe, .dropChild] ∧
      hasWrite (backgroundTask timeout (some (key, signature)) env) = false ∧
      hasSupervised (backgroundTask timeout (some (key, signature)) env)
        = false := by
  have h : backgroundTask timeout (some (key, signature)) env =
      env.chunks.map Ev.read ++ [.mismatch, .dropPipe, .dropChild] := by
    simp [backgroundTask, hbody, hmis]
  refine ⟨h, ?_, ?_⟩ <;> rw [h]
  · rw [hasWrite_reads]; rfl
  · rw [hasSupervised_reads]; rfl

theorem C2_mismatch_skips_supervisor_witness :
    backgroundTask 5 (some ([7], List.replicate 20 1)) mismatchEnv =
        [.read [1, 2], .read [3], .mismatch, .dropPipe, .dropChild] :=
  (C2_mismatch_skips_supervisor 5 [7] (List.replicate 20 1) mismatchEnv rfl
    (by decide)).1

/-- C4: for a hook without a secret, on a run where the stream ends without
error and both pipe operations succeed, the whole body — the concatenation
of all chunks, in order — is written to the child's standard input after the
chunks are exhausted, and the pipe's write side is then explicitly shut
down, before the child is supervised. -/
theorem C4_no_secret_forwards_all (timeout : Nat) (env : Env)
    (hbody : env.bodyErr = false) (hw : env.writeRes = none)
    (hc : env.closeRes = none) :
    backgroundTask timeout none env =
      env.chunks.map Ev.read ++
        [.write env.chunks.flatten, .close, .dropPipe,
          .supervised (supervise timeout env.child)] := by
  rw [backgroundTask_verified timeout none env hbody trivial]
  simp [writeCloseSupervise, closeAndSupervise, hw, hc]

/-- C4 witness input: body `"hi" ++ "!"`, all pipe operations succeeding. -/
def happyEnv : Env :=
  ⟨[[104, 105], [33]], false, fun _ _ => [], none, none, ⟨some 0, .ok 0⟩⟩

theorem C4_no_secret_forwards_all_witness :
    backgroundTask 5 none happyEnv =
      [.read [104, 105], .read [33], .write [104, 105, 33], .close, .dropPipe,
        .supervised ⟨false, true, .exited (.ok 0)⟩] :=
  C4_no_secret_forwards_all 5 happyEnv rfl rfl rfl

/-- C7: on a pipe-write error, kind broken-pipe is benign — the sequence
proceeds to the explicit shutdown and to the wait/timeout race — while a
write error of any other kind stops forwarding: the task logs and returns,
with no explicit close and no supervision. -/
theorem C7_write_error_handling (timeout : Nat)
    (verifier : Option (List Nat × List Nat)) (env : Env)
    (hbody : env.bodyErr = false) (hver : verifierOk verifier env) :
    (env.writeRes = some .brokenPipe → env.closeRes = none →
        backgroundTask timeout verifier env =
          env.chunks.map Ev.read ++
            [.writeErr .brokenPipe, .close, .dropPipe,
              .supervised (supervise timeout env.child)]) ∧
      (∀ k, env.writeRes = some k → k ≠ .brokenPipe →
        backgroundTask timeout verifier env =
          env.chunks.map Ev.read ++ [.writeErr k, .dropPipe, .dropChild]) := by
  rw [backgroundTask_verified timeout verifier env hbody hver]
  constructor
  · intro hw hc
    simp [writeCloseSupervise, closeAndSupervise, hw, hc]
  · intro k hw hk
    simp [writeCloseSupervise, hw, hk]

/-- C7 witness inputs: same body, one run with a broken-pipe write error,
one with a write error of another kind. -/
def brokenPipeEnv : Env :=
  ⟨[[104, 105], [33]], false, fun _ _ => [], some .brokenPipe, none,
    ⟨some 0, .ok 0⟩⟩

def otherErrEnv : Env :=
  ⟨[[104, 105], [33]], false, fun _ _ => [], some (.other 0), none,
    ⟨some 0, .ok 0⟩⟩

theorem C7_write_error_handling_witness :
    backgroundTask 5 none brokenPipeEnv =
        [.read [104, 105], .read [33], .writeErr .brokenPipe, .close,
          .dropPipe, .supervised ⟨false, true, .exited (.ok 0)⟩] ∧
      backgroundTask 5 none otherErrEnv =
        [.read [104, 105], .read [33], .writeErr (.other 0), .dropPipe,
          .dropChild] :=
  ⟨(C7_write_error_handling 5 none brokenPipeEnv rfl trivial).1 rfl rfl,
    (C7_write_error_handling 5 none otherErrEnv rfl trivial).2 (.other 0) rfl
      (by decide)⟩

/-- ASCII lowercasing of one byte (uppercase letters shifted by 32). -/
def lowerByte (b : Nat) : Nat := if 65 ≤ b ∧ b ≤ 90 then b + 32 else b

lemma splitAtFirstEq_none (l : List Nat) (h : ∀ b ∈ l, b ≠ 61) :
    splitAtFirstEq l = none := by
  induction l with
  | nil => rfl
  | cons a rest ih =>
      have ha : a ≠ 61 := h a (List.mem_cons_self a rest)
      have hrest := ih fun b hb => h b (List.mem_cons_of_mem a hb)
      simp [splitAtFirstEq, ha, hrest]

lemma splitAtFirstEq_token (method rest : List Nat)
    (h : ∀ b ∈ method, b ≠ 61) :
    splitAtFirstEq (method ++ 61 :: rest) = some (method, rest) := by
  induction method with
  | nil => simp [splitAtFirstEq]
  | cons a m ih =>
      have ha : a ≠ 61 := h a (List.mem_cons_self a m)
      have hm := ih fun b hb => h b (List.mem_cons_of_mem a hb)
      simp [splitAtFirstEq, ha, hm]

lemma hexDecodePairs_length :
    ∀ l d : List Nat, hexDecodePairs l = some d → l.length = 2 * d.length
  | [], d, h => by
      simp [hexDecodePairs] at h
      subst h
      rfl
  | [a], d, h => by
      simp [hexDecodePairs] at h
  | a :: b :: rest, d, h => by
      cases hva : hexVal a with
      | none => simp [hexDecodePairs, hva] at h
      | some hi =>
          cases hvb : hexVal b with
          | none => simp [hexDecodePairs, hva, hvb] at h
          | some lo =>
              cases hvr : hexDecodePairs rest with
              | none => simp [hexDecodePairs, hva, hvb, hvr] at h
              | some r =>
                  have hr := hexDecodePairs_length rest r hvr
                  simp [hexDecodePairs, hva, hvb, hvr] at h
                  subst h
                  simp [hr]
                  omega

lemma hexVal_lowerByte (b : Nat) : hexVal (lowerByte b) = hexVal b := by
  by_cases h : 65 ≤ b ∧ b ≤ 90
  · simp only [lowerByte, if_pos h]
    unfold hexVal
    split_ifs <;> first | rfl | (exfalso; omega)
  · simp [lowerByte, h]

lemma hexDecodePairs_map_lower :
    ∀ l : List Nat, hexDecodePairs (l.map lowerByte) = hexDecodePairs l
  | [] => rfl
  | [a] => rfl
  | a :: b :: rest => by
      simp [hexDecodePairs, hexVal_lowerByte, hexDecodePairs_map_lower rest]

/-- C3: the header parser splits the value at the first `=` — no `=` at all
is malformed; for the recognized `sha1` token, the parse succeeds exactly
when the hex digest decodes (case-insensitively) to exactly the 20-byte
SHA-1 output length, and every decode or length failure is malformed (never
an algorithm error); any algorithm token other than `sha1` is an unsupported
algorithm, whatever follows the `=`. -/
theorem C3_parse_signature_header :
    (∀ header : List Nat, (∀ b ∈ header, b ≠ 61) →
        parse_signature_header header = .error .Malformed) ∧
      (∀ rest d : List Nat,
        parse_signature_header (sha1Bytes ++ 61 :: rest) = .ok d ↔
          hexDecodePairs rest = some d ∧ d.length = SIGNATURE_LEN) ∧
      (∀ rest : List Nat,
        parse_signature_header (sha1Bytes ++ 61 :: rest) ≠
          .error .UnknownAlgorithm) ∧
      (∀ rest : List Nat,
        parse_signature_header (sha1Bytes ++ 61 :: rest.map lowerByte) =
          parse_signature_header (sha1Bytes ++ 61 :: rest)) ∧
      (∀ method rest : List Nat, (∀ b ∈ method, b ≠ 61) →
        method ≠ sha1Bytes →
        parse_signature_header (method ++ 61 :: rest) =
          .error .UnknownAlgorithm) := by
  have hsha1 : ∀ b ∈ sha1Bytes, b ≠ 61 := by decide
  have hsplit : ∀ rest : List Nat,
      splitAtFirstEq (sha1Bytes ++ 61 :: rest) = some (sha1Bytes, rest) :=
    fun rest => splitAtFirstEq_token sha1Bytes rest hsha1
  refine ⟨?_, ?_, ?_, ?_, ?_⟩
  · intro header h
    simp [parse_signature_header, splitAtFirstEq_none header h]
  · intro rest d
    constructor
    · intro h
      simp only [parse_signature_header, hsplit, if_pos rfl] at h
      cases hd : decode_to_slice rest SIGNATURE_LEN with
      | none => simp [hd] at h
      | some buf =>
          simp [hd] at h
          subst h
          rw [decode_to_slice] at hd
          by_cases hl : rest.length = 2 * SIGNATURE_LEN
          · rw [if_pos hl] at hd
            have := hexDecodePairs_length rest buf hd
            exact ⟨hd, by omega⟩
          · rw [if_neg hl] at hd
            exact absurd hd (by simp)
    · rintro ⟨hdec, hlen⟩
      have hl : rest.length = 2 * SIGNATURE_LEN := by
        rw [hexDecodePairs_length rest d hdec, hlen]
      simp [parse_signature_header, hsplit, decode_to_slice, hl, hdec]
  · intro rest
    simp only [parse_signature_header, hsplit, if_pos rfl]
    cases hd : decode_to_slice rest SIGNATURE_LEN <;> simp [hd]
  · intro rest
    simp only [parse_signature_header, hsplit, if_pos rfl, decode_to_slice,
      List.length_map, hexDecodePairs_map_lower]
  · intro method rest h hm
    simp [parse_signature_header, splitAtFirstEq_token method rest h, hm]

theorem C3_parse_signature_header_witness :
    parse_signature_header [102, 111, 111] = .error .Malformed ∧
      parse_signature_header (sha1Bytes ++ 61 :: List.replicate 40 97) =
        .ok (List.replicate 20 170) ∧
      parse_signature_header (sha1Bytes ++ 61 :: List.replicate 39 97) ≠
        .error .UnknownAlgorithm ∧
      parse_signature_header (sha1Bytes ++ 61 :: List.replicate 40 97) =
        parse_signature_header (sha1Bytes ++ 61 :: List.replicate 40 65) ∧
      parse_signature_header ([102] ++ 61 :: List.replicate 40 97) =
        .error .UnknownAlgorithm := by
  refine ⟨C3_parse_signature_header.1 [102, 111, 111] (by decide),
    (C3_parse_signature_header.2.1 (List.replicate 40 97)
      (List.replicate 20 170)).mpr ⟨by decide, by decide⟩,
    C3_parse_signature_header.2.2.1 (List.replicate 39 97),
    ?_,
    C3_parse_signature_header.2.2.2.2 [102] (List.replicate 40 97)
      (by decide) (by decide)⟩
  have h := C3_parse_signature_header.2.2.2.1 (List.replicate 40 65)
  have hmap : (List.replicate 40 65).map lowerByte = List.replicate 40 97 := by
    decide
  rw [hmap] at h
  exact h.symm

/-- No body-chunk read occurs in the trace. -/
def noReadsIn (tr : List Ev) : Bool := tr.all fun e => !(isRead e)

lemma tail_no_reads_writes_buf (t : Nat) (buf : List Nat) (env : Env) :
    noReadsIn (writeCloseSupervise t buf env) = true ∧
      writesOnly buf (writeCloseSupervise t buf env) = true := by
  cases hw : env.writeRes with
  | none =>
      cases hc : env.closeRes with
      | none =>
          simp [writeCloseSupervise, closeAndSupervise, hw, hc, noReadsIn,
            writesOnly, isRead]
      | some k2 =>
          by_cases h2 : k2 = ErrKind.brokenPipe <;>
            simp [writeCloseSupervise, closeAndSupervise, hw, hc, h2,
              noReadsIn, writesOnly, isRead]
  | some k =>
      by_cases h : k = ErrKind.brokenPipe
      · subst h
        cases hc : env.closeRes with
        | none =>
            simp [writeCloseSupervise, closeAndSupervise, hw, hc, noReadsIn,
              writesOnly, isRead]
        | some k2 =>
            by_cases h2 : k2 = ErrKind.brokenPipe <;>
              simp [writeCloseSupervise, closeAndSupervise, hw, hc, h2,
                noReadsIn, writesOnly, isRead]
      · simp [writeCloseSupervise, hw, h, noReadsIn, writesOnly, isRead]

/-- C9: every run of the background task — whatever the verifier, even for a
hook with no secret — first pulls every chunk of the body stream (the first
`env.chunks.length` events are exactly the reads, and no read happens
later), and any write it ever performs is of the single buffered vector
that is the concatenation of all chunks in order; no individual chunk is
forwarded as it arrives. -/
theorem C9_full_buffering_before_write (timeout : Nat)
    (verifier : Option (List Nat × List Nat)) (env : Env) :
    (backgroundTask timeout verifier env).take env.chunks.length =
        env.chunks.map Ev.read ∧
      noReadsIn ((backgroundTask timeout verifier env).drop env.chunks.length)
        = true ∧
      writesOnly env.chunks.flatten (backgroundTask timeout verifier env)
        = true := by
  have hex : ∃ tail,
      backgroundTask timeout verifier env = env.chunks.map Ev.read ++ tail ∧
        noReadsIn tail = true ∧ writesOnly env.chunks.flatten tail = true := by
    cases hb : env.bodyErr with
    | true => exact ⟨[.readErr, .dropPipe, .dropChild],
        by simp [backgroundTask, hb], rfl, rfl⟩
    | false =>
        cases verifier with
        | none =>
            exact ⟨writeCloseSupervise timeout env.chunks.flatten env,
              backgroundTask_verified timeout none env hb trivial,
              (tail_no_reads_writes_buf timeout env.chunks.flatten env).1,
              (tail_no_reads_writes_buf timeout env.chunks.flatten env).2⟩
        | some p =>
            obtain ⟨key, s⟩ := p
            by_cases hm : env.hmac key env.chunks.flatten = s
            · exact ⟨writeCloseSupervise timeout env.chunks.flatten env,
                backgroundTask_verified timeout (some (key, s)) env hb hm,
                (tail_no_reads_writes_buf timeout env.chunks.flatten env).1,
                (tail_no_reads_writes_buf timeout env.chunks.flatten env).2⟩
            · exact ⟨[.mismatch, .dropPipe, .dropChild],
                by simp [backgroundTask, hb, hm], rfl, rfl⟩
  obtain ⟨tail, heq, h1, h2⟩ := hex
  rw [heq]
  have hlen : env.chunks.length = (env.chunks.map Ev.read).length := by simp
  refine ⟨by rw [hlen, List.take_left], by rw [hlen, List.drop_left]; exact h1,
    ?_⟩
  simp only [writesOnly, List.all_append, List.all_map, Bool.and_eq_true]
  exact ⟨by simp [Function.comp, isRead], h2⟩

end WebhookServer
